import Mathlib

/-!
# Verification of the multilingual-keywords retrieval pipeline

Shallow embedding of the retrieval-and-ranking pipeline implemented in
`keyword_generator.py`: patent-id normalization, the scraping result loop,
the normalized-key patent map, the two retry-wrapped gateways, the
concept-report parser and the ranked-short-list parser.  Python strings are
modelled as `String`/`List Char`; Python dicts as insertion-ordered
association lists with overwriting assignment; the external HTTP and model
capabilities as explicit per-attempt behaviour functions.
-/

/-! ## Python string primitives -/

/-- Python `str.strip`-style stripping: drop characters satisfying `p`
from both ends of a character list. -/
def stripEnds (p : Char → Bool) (l : List Char) : List Char :=
  ((l.dropWhile p).reverse.dropWhile p).reverse

/-- Python `s.strip()` (no argument): strip whitespace from both ends. -/
def pyStripWS (s : String) : String :=
  String.mk (stripEnds Char.isWhitespace s.toList)

/-- Python `s.strip('[]')`: strip any leading/trailing `[` or `]`. -/
def pyStripBrackets (s : String) : String :=
  String.mk (stripEnds (fun c => c = '[' || c = ']') s.toList)

/-- Python `s.split(sep)` for a one-character separator: split a character
list at every occurrence of `sep`, keeping empty pieces. -/
def splitChar (sep : Char) : List Char → List (List Char)
  | [] => [[]]
  | c :: cs =>
      let r := splitChar sep cs
      if c = sep then [] :: r
      else
        match r with
        | [] => [[c]]          -- unreachable: `splitChar` never returns `[]`
        | h :: t => (c :: h) :: t

/-! ## `normalize_patent_id` (keyword_generator.py lines 493-506)

Python returns `None` for a falsy or non-string argument; the empty string
is the falsy `str` case, so the embedding returns `Option String`. -/

/-- `normalize_patent_id`: extract the core publication number from the
various raw patent-id formats ("patent/US1234A1/en", "US1234A1", ...). -/
def normalize_patent_id (raw_id : String) : Option String :=
  if raw_id = "" then none
  else
    let cleaned := pyStripBrackets (pyStripWS raw_id)
    if '/' ∈ cleaned.toList then
      match splitChar '/' cleaned.toList with
      | p0 :: p1 :: _ =>
          -- `len(parts) > 1 and parts[0] == 'patent'`
          if p0 = "patent".toList then some (String.mk p1) else some cleaned
      | _ => some cleaned
    else some cleaned

/-! ### Facts about `splitChar` -/

theorem splitChar_ne_nil (sep : Char) (l : List Char) : splitChar sep l ≠ [] := by
  induction l with
  | nil => simp [splitChar]
  | cons c cs ih =>
      simp only [splitChar]
      split
      · simp
      · cases h : splitChar sep cs with
        | nil => exact absurd h ih
        | cons hd tl => simp

theorem splitChar_not_mem (sep : Char) (l : List Char) :
    ∀ p ∈ splitChar sep l, sep ∉ p := by
  induction l with
  | nil =>
      intro p hp
      simp [splitChar] at hp
      simp [hp]
  | cons c cs ih =>
      obtain ⟨hd, tl, h⟩ := List.exists_cons_of_ne_nil (splitChar_ne_nil sep cs)
      have hhd : sep ∉ hd := ih hd (by simp [h])
      have htl : ∀ q ∈ tl, sep ∉ q := fun q hq => ih q (by simp [h, hq])
      have hstep : splitChar sep (c :: cs) =
          if c = sep then [] :: hd :: tl else (c :: hd) :: tl := by
        simp [splitChar, h]
      intro p hp
      rw [hstep] at hp
      by_cases hc : c = sep
      · rw [if_pos hc] at hp
        simp only [List.mem_cons] at hp
        rcases hp with hp | hp | hp
        · simp [hp]
        · exact hp ▸ hhd
        · exact htl p hp
      · rw [if_neg hc] at hp
        simp only [List.mem_cons] at hp
        rcases hp with hp | hp
        · subst hp
          intro hm
          simp only [List.mem_cons] at hm
          rcases hm with hm | hm
          · exact hc hm.symm
          · exact hhd hm
        · exact htl p hp

/-! ## Claim C3: normalization examples and (non-)idempotence -/

/-- Helper: a string already stable under the cleaning step and containing
no slash normalizes to itself. -/
theorem normalize_clean_no_slash (y : String) (hne : y ≠ "")
    (hclean : pyStripBrackets (pyStripWS y) = y) (h : '/' ∉ y.toList) :
    normalize_patent_id y = some y := by
  simp only [normalize_patent_id, hclean, if_neg hne, if_neg h]

/-- Helper: a string stable under the cleaning step whose slash-split is not
"patent"-headed normalizes to itself. -/
theorem normalize_clean_slash (y : String) (hne : y ≠ "")
    (hclean : pyStripBrackets (pyStripWS y) = y) (h : '/' ∈ y.toList)
    (hshape : ∀ p0 p1 rest, splitChar '/' y.toList = p0 :: p1 :: rest →
      p0 ≠ "patent".toList) :
    normalize_patent_id y = some y := by
  simp only [normalize_patent_id, hclean, if_neg hne, if_pos h]
  rcases hs : splitChar '/' y.toList with _ | ⟨p0, _ | ⟨p1, rest⟩⟩
  · rfl
  · rfl
  · simp only [if_neg (hshape p0 p1 rest hs)]

/-- C3 (corrected claim, counterexample): `normalize_patent_id` is NOT stable
under repeated application for every string: the composite id
"patent/ US1234A1/en" normalizes to " US1234A1" (the inner segment keeps its
space), and a second application strips it. -/
theorem C3_counterexample :
    normalize_patent_id "patent/ US1234A1/en" = some " US1234A1" ∧
    (normalize_patent_id "patent/ US1234A1/en").bind normalize_patent_id =
      some "US1234A1" ∧
    (normalize_patent_id "patent/ US1234A1/en").bind normalize_patent_id ≠
      normalize_patent_id "patent/ US1234A1/en" := by
  refine ⟨by decide, by decide, by decide⟩

/-- C3 (amended): `normalize_patent_id` maps both "patent/US1234A1/en" and
"US1234A1" to "US1234A1", and it is stable under repeated application on
every input whose normalized form is non-empty and already free of
leading/trailing whitespace and square brackets. -/
theorem C3_normalize_amended :
    normalize_patent_id "patent/US1234A1/en" = some "US1234A1" ∧
    normalize_patent_id "US1234A1" = some "US1234A1" ∧
    ∀ x y, normalize_patent_id x = some y →
      pyStripBrackets (pyStripWS y) = y → y ≠ "" →
      normalize_patent_id y = some y := by
  refine ⟨by decide, by decide, ?_⟩
  intro x y hnorm hclean hne
  by_cases hx : x = ""
  · simp [normalize_patent_id, hx] at hnorm
  · simp only [normalize_patent_id, if_neg hx] at hnorm
    by_cases hsl : '/' ∈ (pyStripBrackets (pyStripWS x)).toList
    · rw [if_pos hsl] at hnorm
      rcases hs : splitChar '/' (pyStripBrackets (pyStripWS x)).toList with
        _ | ⟨p0, _ | ⟨p1, rest⟩⟩ <;> rw [hs] at hnorm <;> simp at hnorm
      · subst hnorm
        exact normalize_clean_slash _ hne hclean hsl
          (fun p0 p1 rest heq => by rw [heq] at hs; cases hs)
      · subst hnorm
        exact normalize_clean_slash _ hne hclean hsl
          (fun p0' p1' rest' heq => by rw [heq] at hs; cases hs)
      · by_cases hpat : p0 = "patent".toList
        · have hpat2 : p0 = ['p', 'a', 't', 'e', 'n', 't'] := by rw [hpat]; decide
          rw [if_pos hpat2] at hnorm
          simp at hnorm
          have hmem : p1 ∈ splitChar '/' (pyStripBrackets (pyStripWS x)).toList := by
            rw [hs]; exact List.mem_cons_of_mem _ (List.mem_cons_self _ _)
          have hnos : '/' ∉ p1 := splitChar_not_mem '/' _ p1 hmem
          have hy : y.toList = p1 := by rw [← hnorm]; rfl
          exact normalize_clean_no_slash y hne hclean (by rw [hy]; exact hnos)
        · have hpat2 : ¬p0 = ['p', 'a', 't', 'e', 'n', 't'] := by
            intro hh; exact hpat (by rw [hh]; decide)
          rw [if_neg hpat2] at hnorm
          simp at hnorm
          subst hnorm
          refine normalize_clean_slash _ hne hclean hsl ?_
          intro p0' p1' rest' heq
          rw [heq] at hs
          obtain ⟨h0, -⟩ := List.cons.inj hs
          rw [h0]; exact hpat
    · rw [if_neg hsl] at hnorm
      simp at hnorm
      subst hnorm
      exact normalize_clean_no_slash _ hne hclean hsl

/-- C3 witness: the amended stability statement applied at the concrete
input "patent/US1234A1/en", whose normalized form "US1234A1" is clean. -/
theorem C3_normalize_amended_witness :
    normalize_patent_id "US1234A1" = some "US1234A1" :=
  C3_normalize_amended.2.2 "patent/US1234A1/en" "US1234A1"
    (by decide) (by decide) (by decide)

/-! ## Patent records and the scraping result loop
(keyword_generator.py lines 405-489) -/

/-- Python `s.replace(old, new)`: replace every (non-overlapping, leftmost)
occurrence, written with explicit fuel so it evaluates by kernel reduction;
`fuel ≥ l.length` always suffices since every step consumes a character. -/
def replaceAllFuel (pat repl : List Char) : Nat → List Char → List Char
  | 0, l => l
  | _ + 1, [] => []
  | fuel + 1, c :: cs =>
      if pat ≠ [] ∧ pat.isPrefixOf (c :: cs) then
        repl ++ replaceAllFuel pat repl fuel ((c :: cs).drop pat.length)
      else c :: replaceAllFuel pat repl fuel cs

/-- Python `s.replace(old, new)` on strings. -/
def pyReplace (s old new : String) : String :=
  String.mk (replaceAllFuel old.toList new.toList s.toList.length s.toList)

/-- One scraped result record, a Python dict: every field read with
`.get(...)` in the source is an `Option`. -/
structure RawPatent where
  patent_id : Option String
  title : Option String
  publication_date : Option String
  assignee : Option String
  inventor : Option String
  snippet : Option String
  pdf : Option String
  url : Option String
deriving DecidableEq

/-- The per-record body of the result-processing loop shared by
`scrape_individual_terms_concurrently` (lines 461-470): keep the record iff
its raw `patent_id` is truthy and not yet seen, attaching the constructed
Google Patents URL; state = (all_patents, seen_patent_ids). -/
def addPatent (st : List RawPatent × List String) (patent : RawPatent) :
    List RawPatent × List String :=
  match patent.patent_id with
  | some patent_id =>
      if patent_id ≠ "" ∧ patent_id ∉ st.2 then
        let url_id_part := pyReplace patent_id "patent/" ""
        let url := "https://patents.google.com/patent/" ++ url_id_part
        (st.1 ++ [{ patent with url := some url }], st.2 ++ [patent_id])
      else st
  | none => st

/-- The collected patent list and seen-id set after processing a stream of
organic results (in worker completion order). -/
def processOrganicResults (ps : List RawPatent) : List RawPatent × List String :=
  ps.foldl addPatent ([], [])

/-- `format_patent_list_for_prompt` body for one record (lines 245-254). -/
def patentBlock (i : Nat) (p : RawPatent) : String :=
  "--- Patent " ++ toString i ++ " ---\n" ++
  "ID: " ++ p.patent_id.getD "N/A" ++ "\n" ++
  "URL: " ++ p.url.getD "URL Construction Failed" ++ "\n" ++
  "Title: " ++ p.title.getD "N/A" ++ "\n" ++
  "Publication Date: " ++ p.publication_date.getD "N/A" ++ "\n" ++
  "Assignee: " ++ p.assignee.getD "N/A" ++ "\n" ++
  "Inventor: " ++ p.inventor.getD "N/A" ++ "\n" ++
  "Snippet: " ++ p.snippet.getD "N/A" ++ "\n\n"

/-- `format_patent_list_for_prompt` (lines 242-255): concatenation of one
block per record, numbered from 1. -/
def format_patent_list_for_prompt (patents : List RawPatent) : String :=
  (patents.enum.map (fun ip => patentBlock (ip.1 + 1) ip.2)).foldl (· ++ ·) ""

/-! ## The normalized-key patent map (lines 633-643)

A Python dict is modelled as an insertion-ordered association list;
assignment `d[k] = v` overwrites in place the entry holding `k`, else
appends. -/

/-- Python dict assignment. -/
def dictInsert {α : Type} : List (String × α) → String → α → List (String × α)
  | [], k, v => [(k, v)]
  | kv :: d, k, v => if kv.1 == k then (k, v) :: d else kv :: dictInsert d k v

/-- Python dict lookup (`d.get(k)` / `d[k]` guarded by `k in d`). -/
def dictLookup {α : Type} (d : List (String × α)) (k : String) : Option α :=
  (d.find? (fun kv => kv.1 == k)).map Prod.snd

/-- The body of the dict-population loop in `generate_keyword_report`
(lines 634-642): normalize the raw id; skip the record when the id is
missing or the normalized key is falsy (None or empty). -/
def populateStep (d : List (String × RawPatent)) (p_data : RawPatent) :
    List (String × RawPatent) :=
  match p_data.patent_id with
  | some raw_patent_id =>
      match normalize_patent_id raw_patent_id with
      | some normalized_key =>
          if normalized_key ≠ "" then dictInsert d normalized_key p_data else d
      | none => d
  | none => d

/-- `scraped_patents_dict` after the population loop over the scraped list. -/
def populateScrapedDict (rs : List RawPatent) : List (String × RawPatent) :=
  rs.foldl populateStep []

/-- The (truthy) normalized key under which the loop would file a record. -/
def normKey (p : RawPatent) : Option String :=
  match p.patent_id with
  | some raw =>
      match normalize_patent_id raw with
      | some k => if k ≠ "" then some k else none
      | none => none
  | none => none

theorem populateStep_eq_normKey (d : List (String × RawPatent)) (p : RawPatent) :
    populateStep d p = match normKey p with
      | some k => dictInsert d k p
      | none => d := by
  unfold populateStep normKey
  cases hid : p.patent_id with
  | none => rfl
  | some raw =>
      cases hn : normalize_patent_id raw with
      | none => simp only [hn]
      | some k =>
          simp only [hn]
          by_cases hk : k = "" <;> simp [hk]

/-! ### Dict lemmas -/

theorem dictLookup_dictInsert {α : Type} (d : List (String × α)) (k k' : String)
    (v : α) :
    dictLookup (dictInsert d k v) k' = if k' = k then some v else dictLookup d k' := by
  induction d with
  | nil =>
      by_cases h : k' = k
      · subst h; simp [dictInsert, dictLookup]
      · have hb : (k == k') = false := beq_eq_false_iff_ne.mpr (Ne.symm h)
        simp [dictInsert, dictLookup, List.find?, hb, h]
  | cons kv d ih =>
      by_cases h1 : kv.1 = k
      · rw [show dictInsert (kv :: d) k v = (k, v) :: d by simp [dictInsert, h1]]
        by_cases h2 : k' = k
        · subst h2; simp [dictLookup, List.find?]
        · have hb : (k == k') = false := beq_eq_false_iff_ne.mpr (Ne.symm h2)
          have hb2 : (kv.1 == k') = false := by rw [h1]; exact hb
          simp [dictLookup, List.find?, hb, hb2, h2]
      · rw [show dictInsert (kv :: d) k v = kv :: dictInsert d k v by
          simp [dictInsert, h1]]
        by_cases h3 : kv.1 = k'
        · have hkk : ¬ k' = k := fun hh => h1 (h3.trans hh)
          have hb : (kv.1 == k') = true := beq_iff_eq.mpr h3
          simp [dictLookup, List.find?, hb, hkk]
        · have hb : (kv.1 == k') = false := beq_eq_false_iff_ne.mpr h3
          simp only [dictLookup, List.find?, hb] at ih ⊢
          simpa using ih

theorem keys_dictInsert {α : Type} (d : List (String × α)) (k : String) (v : α) :
    (dictInsert d k v).map Prod.fst =
      if k ∈ d.map Prod.fst then d.map Prod.fst else d.map Prod.fst ++ [k] := by
  induction d with
  | nil => simp [dictInsert]
  | cons kv d ih =>
      by_cases h1 : kv.1 = k
      · rw [show dictInsert (kv :: d) k v = (k, v) :: d by simp [dictInsert, h1]]
        simp [h1]
      · rw [show dictInsert (kv :: d) k v = kv :: dictInsert d k v by
          simp [dictInsert, h1]]
        by_cases h2 : k ∈ d.map Prod.fst
        · simp [ih, h2, Ne.symm h1]
        · simp [ih, h2, Ne.symm h1]

theorem nodup_keys_dictInsert {α : Type} (d : List (String × α)) (k : String)
    (v : α) (h : (d.map Prod.fst).Nodup) :
    ((dictInsert d k v).map Prod.fst).Nodup := by
  rw [keys_dictInsert]
  by_cases hm : k ∈ d.map Prod.fst
  · simpa [hm] using h
  · simp [hm, List.nodup_append, h]

theorem nodup_keys_populate_fold (rs : List RawPatent)
    (d : List (String × RawPatent)) (h : (d.map Prod.fst).Nodup) :
    (((rs.foldl populateStep d).map Prod.fst)).Nodup := by
  induction rs generalizing d with
  | nil => simpa using h
  | cons p rs ih =>
      simp only [List.foldl_cons]
      refine ih (populateStep d p) ?_
      rw [populateStep_eq_normKey]
      cases normKey p with
      | none => exact h
      | some k => exact nodup_keys_dictInsert d k p h

theorem dictLookup_populate_fold (rs : List RawPatent)
    (d : List (String × RawPatent)) (k : String) :
    dictLookup (rs.foldl populateStep d) k =
      (rs.reverse.find? (fun p => normKey p == some k)).or (dictLookup d k) := by
  induction rs generalizing d with
  | nil => simp
  | cons p rs ih =>
      simp only [List.foldl_cons, List.reverse_cons, List.find?_append]
      rw [ih, Option.or_assoc]
      congr 1
      rw [populateStep_eq_normKey]
      cases hn : normKey p with
      | none =>
          have hb : (normKey p == some k) = false := by simp [hn]
          simp [List.find?, hb]
      | some k0 =>
          by_cases hk : k0 = k
          · subst hk
            have hb : (normKey p == some k0) = true := by simp [hn]
            simp [List.find?, hb, dictLookup_dictInsert]
          · have hb : (normKey p == some k) = false := by simp [hn, hk]
            simp [List.find?, hb, dictLookup_dictInsert, Ne.symm hk]

/-! ## Claim C1: the normalized-key patent map -/

/-- A scraped record whose raw id carries the "patent/<CODE>/<lang>" shape. -/
def recComposite : RawPatent :=
  { patent_id := some "patent/US1234A1/en", title := some "Title A",
    publication_date := none, assignee := none, inventor := none,
    snippet := none, pdf := none, url := none }

/-- A scraped record whose raw id is the bare code of the same document. -/
def recBare : RawPatent :=
  { patent_id := some "US1234A1", title := some "Title B",
    publication_date := none, assignee := none, inventor := none,
    snippet := none, pdf := none, url := none }

/-- C1 (corrected claim, counterexample): insertion into the normalized-key
map is plain dict assignment, so when two scraped records with different raw
ids share a normalized id, the LAST record seen wins, not the first: after
inserting `recComposite` then `recBare`, the map holds `recBare`. -/
theorem C1_counterexample :
    normKey recComposite = some "US1234A1" ∧
    normKey recBare = some "US1234A1" ∧
    dictLookup (populateScrapedDict [recComposite, recBare]) "US1234A1" =
      some recBare ∧ recBare ≠ recComposite := by
  refine ⟨by decide, by decide, by decide, by decide⟩

/-- C1 (amended): for every list of scraped records, the normalized-key map
has pairwise-distinct keys, a key is present exactly when some record
normalizes to it (one entry per distinct truthy normalized id), and the
entry stored under a key is the LAST record of the list that normalizes to
that key (earlier duplicates are overwritten whole, not merged). -/
theorem C1_map_amended (rs : List RawPatent) (k : String) :
    ((populateScrapedDict rs).map Prod.fst).Nodup ∧
    (dictLookup (populateScrapedDict rs) k ≠ none ↔
      ∃ p ∈ rs, normKey p = some k) ∧
    dictLookup (populateScrapedDict rs) k =
      rs.reverse.find? (fun p => normKey p == some k) := by
  have hlook : dictLookup (populateScrapedDict rs) k =
      rs.reverse.find? (fun p => normKey p == some k) := by
    rw [populateScrapedDict, dictLookup_populate_fold]
    simp [dictLookup]
  refine ⟨nodup_keys_populate_fold rs [] (by simp), ?_, hlook⟩
  rw [hlook]
  constructor
  · intro hne
    rcases hx : rs.reverse.find? (fun p => normKey p == some k) with _ | p
    · exact absurd hx hne
    · have hmem := List.mem_of_find?_eq_some hx
      have hp := List.find?_some hx
      exact ⟨p, List.mem_reverse.mp hmem, by simpa using hp⟩
  · rintro ⟨p, hmem, hkey⟩ hnone
    rw [List.find?_eq_none] at hnone
    exact hnone p (List.mem_reverse.mpr hmem) (by simp [hkey])

/-- C1 witness: the amended map characterization applied at the concrete
two-record overlap, evaluating the map, the key set and the last-wins
lookup. -/
theorem C1_map_amended_witness :
    ((populateScrapedDict [recComposite, recBare]).map Prod.fst).Nodup ∧
    (dictLookup (populateScrapedDict [recComposite, recBare]) "US1234A1" ≠ none ↔
      ∃ p ∈ [recComposite, recBare], normKey p = some "US1234A1") ∧
    dictLookup (populateScrapedDict [recComposite, recBare]) "US1234A1" =
      [recComposite, recBare].reverse.find?
        (fun p => normKey p == some "US1234A1") :=
  C1_map_amended [recComposite, recBare] "US1234A1"

/-! ## Claim C8: the canonical URL attached at insertion -/

/-- Unfolding equation for `addPatent` when the record has a raw id. -/
theorem addPatent_eq_some (st : List RawPatent × List String) (q : RawPatent)
    (pid : String) (hid : q.patent_id = some pid) :
    addPatent st q =
      if pid ≠ "" ∧ pid ∉ st.2 then
        (st.1 ++ [{ q with url := some ("https://patents.google.com/patent/" ++
            pyReplace pid "patent/" "") }],
         st.2 ++ [pid])
      else st := by
  unfold addPatent
  rw [hid]

/-- Unfolding equation for `addPatent` when the record has no raw id. -/
theorem addPatent_eq_none (st : List RawPatent × List String) (q : RawPatent)
    (hid : q.patent_id = none) : addPatent st q = st := by
  unfold addPatent
  rw [hid]

/-- Every record the scraping loop keeps carries the URL built from its RAW
id by deleting "patent/" occurrences (`patent_id.replace("patent/", "")`). -/
theorem foldl_addPatent_url (rs : List RawPatent)
    (st : List RawPatent × List String)
    (h : ∀ p ∈ st.1, ∃ raw, p.patent_id = some raw ∧
      p.url = some ("https://patents.google.com/patent/" ++
        pyReplace raw "patent/" "")) :
    ∀ p ∈ (rs.foldl addPatent st).1, ∃ raw, p.patent_id = some raw ∧
      p.url = some ("https://patents.google.com/patent/" ++
        pyReplace raw "patent/" "") := by
  induction rs generalizing st with
  | nil => simpa using h
  | cons q rs ih =>
      simp only [List.foldl_cons]
      refine ih (addPatent st q) ?_
      intro p hp
      cases hid : q.patent_id with
      | none => rw [addPatent_eq_none st q hid] at hp; exact h p hp
      | some pid =>
          rw [addPatent_eq_some st q pid hid] at hp
          by_cases hc : pid ≠ "" ∧ pid ∉ st.2
          · rw [if_pos hc] at hp
            rcases List.mem_append.mp hp with hp | hp
            · exact h p hp
            · rcases List.mem_singleton.mp hp with rfl
              exact ⟨pid, hid, rfl⟩
          · rw [if_neg hc] at hp
            exact h p hp

/-- C8 (corrected claim, counterexample): for the composite raw id
"patent/US1234A1/en" the inserted record's URL keeps the "/en" suffix, so it
is NOT the base URL followed by the normalized identifier "US1234A1". -/
theorem C8_counterexample :
    (processOrganicResults [recComposite]).1 =
      [{ recComposite with
          url := some "https://patents.google.com/patent/US1234A1/en" }] ∧
    normalize_patent_id "patent/US1234A1/en" = some "US1234A1" ∧
    ("https://patents.google.com/patent/US1234A1/en" : String) ≠
      "https://patents.google.com/patent/" ++ "US1234A1" := by
  refine ⟨by decide, by decide, by decide⟩

/-- C8 (amended): every record inserted during retrieval has its `url` equal
to "https://patents.google.com/patent/" followed by its RAW identifier with
every "patent/" substring removed — which coincides with the normalized
identifier for bare or "patent/<CODE>" ids but not for
"patent/<CODE>/<lang>" composites. -/
theorem C8_url_amended (rs : List RawPatent) :
    ∀ p ∈ (processOrganicResults rs).1, ∃ raw, p.patent_id = some raw ∧
      p.url = some ("https://patents.google.com/patent/" ++
        pyReplace raw "patent/" "") :=
  foldl_addPatent_url rs ([], []) (by simp)

/-- C8 witness: the amended URL law applied to the concrete scrape of the
bare-id record. -/
theorem C8_url_amended_witness :
    ∃ raw, ({ recBare with
        url := some "https://patents.google.com/patent/US1234A1" } :
          RawPatent).patent_id = some raw ∧
      ({ recBare with
        url := some "https://patents.google.com/patent/US1234A1" } :
          RawPatent).url = some ("https://patents.google.com/patent/" ++
        pyReplace raw "patent/" "") :=
  C8_url_amended [recBare] _ (by decide)

/-! ## Claim C10: de-duplication compares raw ids, the map normalized ids -/

/-- C10: when two result records carry DIFFERENT raw identifiers that
normalize to the same identifier, the raw-id de-duplication of the scraping
loop keeps both in the collected list, the ranking prompt formats both, and
the normalized-key map built from that list retains exactly one of them. -/
theorem C10_raw_dedup (q1 q2 : RawPatent) (id1 id2 k : String)
    (h1 : q1.patent_id = some id1) (h2 : q2.patent_id = some id2)
    (hne1 : id1 ≠ "") (hne2 : id2 ≠ "") (hraw : id1 ≠ id2)
    (hn1 : normalize_patent_id id1 = some k)
    (hn2 : normalize_patent_id id2 = some k) (hk : k ≠ "") :
    (processOrganicResults [q1, q2]).1 =
      [{ q1 with url := some ("https://patents.google.com/patent/" ++
          pyReplace id1 "patent/" "") },
       { q2 with url := some ("https://patents.google.com/patent/" ++
          pyReplace id2 "patent/" "") }] ∧
    format_patent_list_for_prompt (processOrganicResults [q1, q2]).1 =
      patentBlock 1 { q1 with url := some ("https://patents.google.com/patent/" ++
          pyReplace id1 "patent/" "") } ++
      patentBlock 2 { q2 with url := some ("https://patents.google.com/patent/" ++
          pyReplace id2 "patent/" "") } ∧
    populateScrapedDict (processOrganicResults [q1, q2]).1 =
      [(k, { q2 with url := some ("https://patents.google.com/patent/" ++
          pyReplace id2 "patent/" "") })] := by
  have hstep1 : addPatent ([], []) q1 =
      ([{ q1 with url := some ("https://patents.google.com/patent/" ++
          pyReplace id1 "patent/" "") }], [id1]) := by
    rw [addPatent_eq_some ([], []) q1 id1 h1, if_pos (by simp [hne1])]
    simp
  have hstep2 : addPatent ([{ q1 with
      url := some ("https://patents.google.com/patent/" ++
        pyReplace id1 "patent/" "") }], [id1]) q2 =
      ([{ q1 with url := some ("https://patents.google.com/patent/" ++
          pyReplace id1 "patent/" "") },
        { q2 with url := some ("https://patents.google.com/patent/" ++
          pyReplace id2 "patent/" "") }], [id1, id2]) := by
    rw [addPatent_eq_some _ q2 id2 h2, if_pos (by simp [hne2, Ne.symm hraw])]
    simp
  have hlist : (processOrganicResults [q1, q2]).1 =
      [{ q1 with url := some ("https://patents.google.com/patent/" ++
          pyReplace id1 "patent/" "") },
       { q2 with url := some ("https://patents.google.com/patent/" ++
          pyReplace id2 "patent/" "") }] := by
    simp only [processOrganicResults, List.foldl_cons, List.foldl_nil,
      hstep1, hstep2]
  refine ⟨hlist, ?_, ?_⟩
  · rw [hlist]
    simp [format_patent_list_for_prompt, List.enum]
  · rw [hlist]
    simp only [populateScrapedDict, List.foldl_cons, List.foldl_nil]
    rw [populateStep_eq_normKey, populateStep_eq_normKey]
    have hk1 : normKey { q1 with
        url := some ("https://patents.google.com/patent/" ++
          pyReplace id1 "patent/" "") } = some k := by
      unfold normKey
      simp only [h1, hn1]
      simp [hk]
    have hk2 : normKey { q2 with
        url := some ("https://patents.google.com/patent/" ++
          pyReplace id2 "patent/" "") } = some k := by
      unfold normKey
      simp only [h2, hn2]
      simp [hk]
    rw [hk1, hk2]
    simp [dictInsert]

/-- C10 witness: the raw-id/normalized-id split at the concrete pair
("patent/US1234A1/en", "US1234A1"): both kept and formatted, one map entry. -/
theorem C10_raw_dedup_witness :
    (processOrganicResults [recComposite, recBare]).1 =
      [{ recComposite with url := some ("https://patents.google.com/patent/" ++
          pyReplace "patent/US1234A1/en" "patent/" "") },
       { recBare with url := some ("https://patents.google.com/patent/" ++
          pyReplace "US1234A1" "patent/" "") }] ∧
    format_patent_list_for_prompt (processOrganicResults [recComposite, recBare]).1 =
      patentBlock 1 { recComposite with
          url := some ("https://patents.google.com/patent/" ++
            pyReplace "patent/US1234A1/en" "patent/" "") } ++
      patentBlock 2 { recBare with
          url := some ("https://patents.google.com/patent/" ++
            pyReplace "US1234A1" "patent/" "") } ∧
    populateScrapedDict (processOrganicResults [recComposite, recBare]).1 =
      [("US1234A1", { recBare with
          url := some ("https://patents.google.com/patent/" ++
            pyReplace "US1234A1" "patent/" "") })] :=
  C10_raw_dedup recComposite recBare "patent/US1234A1/en" "US1234A1" "US1234A1"
    (by decide) (by decide) (by decide) (by decide) (by decide)
    (by decide) (by decide) (by decide)

/-! ## The Model Gateway: `call_gemini_with_retry` (lines 42-129)

The external model capability is an oracle giving each 0-based attempt's
outcome: the call raises, or a response arrives from which `response_text`
is extracted (possibly empty — blocked prompt / truncated generation). -/

def MAX_RETRIES : Nat := 3
def RETRY_DELAY : Nat := 5

inductive GeminiOutcome where
  | raises (msg : String)
  | extracted (text : String)
deriving DecidableEq

/-- Result of one gateway invocation: the returned string, the number of
attempts actually made and the sleeps performed between attempts. -/
structure GeminiRun where
  result : String
  attempts : Nat
  sleeps : List Nat
deriving DecidableEq

/-- The `for attempt in range(MAX_RETRIES)` retry loop; `r` counts the
remaining iterations (`attempt = MAX_RETRIES - r` throughout). -/
def geminiLoop (behavior : Nat → GeminiOutcome) (task : String) :
    Nat → Nat → List Nat → GeminiRun
  | attempt, 0, sleeps =>
      -- line 129: the loop exhausted without returning (dead for MAX_RETRIES ≥ 1)
      { result := "# Error\n\n" ++ task ++ " failed after retries.",
        attempts := attempt, sleeps := sleeps }
  | attempt, r + 1, sleeps =>
      match behavior attempt with
      | .extracted text =>
          if text ≠ "" then
            { result := pyStripWS text, attempts := attempt + 1, sleeps := sleeps }
          else if attempt = MAX_RETRIES - 1 then
            { result := "# Error\n\nReceived empty or problematic response from API for "
                ++ task ++ " after retries.",
              attempts := attempt + 1, sleeps := sleeps }
          else
            geminiLoop behavior task (attempt + 1) r
              (sleeps ++ [RETRY_DELAY * (attempt + 1)])
      | .raises msg =>
          if attempt < MAX_RETRIES - 1 then
            geminiLoop behavior task (attempt + 1) r
              (sleeps ++ [RETRY_DELAY * (attempt + 1)])
          else
            { result := "# Error\n\nAn unexpected error occurred during " ++ task
                ++ " after " ++ toString MAX_RETRIES ++ " attempts: " ++ msg,
              attempts := attempt + 1, sleeps := sleeps }

/-- `call_gemini_with_retry` with the API key configured. -/
def call_gemini_with_retry (behavior : Nat → GeminiOutcome)
    (task_description : String) : GeminiRun :=
  geminiLoop behavior task_description 0 MAX_RETRIES []

/-- An attempt outcome the loop retries on: an exception, or a response with
no extractable text. -/
def failishB : GeminiOutcome → Bool
  | .raises _ => true
  | .extracted t => t == ""

theorem not_failish (o : GeminiOutcome) (h : failishB o = false) :
    ∃ t, o = .extracted t ∧ t ≠ "" := by
  cases o with
  | raises m => simp [failishB] at h
  | extracted t => exact ⟨t, rfl, by simpa [failishB] using h⟩

theorem geminiLoop_step_fail (behavior : Nat → GeminiOutcome) (task : String)
    (attempt r : Nat) (sleeps : List Nat)
    (hf : failishB (behavior attempt) = true) (hlt : attempt < MAX_RETRIES - 1) :
    geminiLoop behavior task attempt (r + 1) sleeps =
      geminiLoop behavior task (attempt + 1) r
        (sleeps ++ [RETRY_DELAY * (attempt + 1)]) := by
  cases hb : behavior attempt with
  | raises msg => simp [geminiLoop, hb, hlt]
  | extracted t =>
      have ht : t = "" := by simpa [failishB, hb] using hf
      subst ht
      simp [geminiLoop, hb, Nat.ne_of_lt hlt]

theorem geminiLoop_step_success (behavior : Nat → GeminiOutcome) (task : String)
    (attempt r : Nat) (sleeps : List Nat) (t : String)
    (hb : behavior attempt = .extracted t) (ht : t ≠ "") :
    geminiLoop behavior task attempt (r + 1) sleeps =
      { result := pyStripWS t, attempts := attempt + 1, sleeps := sleeps } := by
  simp [geminiLoop, hb, ht]

theorem geminiLoop_step_last_fail (behavior : Nat → GeminiOutcome) (task : String)
    (r : Nat) (sleeps : List Nat)
    (hf : failishB (behavior (MAX_RETRIES - 1)) = true) :
    (geminiLoop behavior task (MAX_RETRIES - 1) (r + 1) sleeps).attempts =
        MAX_RETRIES ∧
    (geminiLoop behavior task (MAX_RETRIES - 1) (r + 1) sleeps).sleeps = sleeps ∧
    ((geminiLoop behavior task (MAX_RETRIES - 1) (r + 1) sleeps).result =
        "# Error\n\nReceived empty or problematic response from API for "
          ++ task ++ " after retries." ∨
      ∃ msg, (geminiLoop behavior task (MAX_RETRIES - 1) (r + 1) sleeps).result =
        "# Error\n\nAn unexpected error occurred during " ++ task
          ++ " after " ++ toString MAX_RETRIES ++ " attempts: " ++ msg) := by
  have h2 : MAX_RETRIES - 1 = 2 := rfl
  rw [h2] at hf ⊢
  cases hb : behavior 2 with
  | raises msg =>
      refine ⟨?_, ?_, Or.inr ⟨msg, ?_⟩⟩ <;> simp [geminiLoop, hb, MAX_RETRIES]
  | extracted t =>
      have ht : t = "" := by simpa [failishB, hb] using hf
      subst ht
      refine ⟨?_, ?_, Or.inl ?_⟩ <;> simp [geminiLoop, hb, MAX_RETRIES]

/-- C4: the Model Gateway makes at most 3 attempts (and at least one); it
sleeps `RETRY_DELAY * attemptNumber` between attempts (linear backoff); the
first attempt that yields non-empty text ends the loop with that text
trimmed; and when every attempt raises or yields no extractable text it
stops after exactly `MAX_RETRIES` attempts with an error-marked string
instead of raising. -/
theorem C4_gemini_retry (behavior : Nat → GeminiOutcome) (task : String) :
    (1 ≤ (call_gemini_with_retry behavior task).attempts ∧
      (call_gemini_with_retry behavior task).attempts ≤ MAX_RETRIES) ∧
    (call_gemini_with_retry behavior task).sleeps =
      (List.range ((call_gemini_with_retry behavior task).attempts - 1)).map
        (fun i => RETRY_DELAY * (i + 1)) ∧
    (∀ kk t, kk < MAX_RETRIES → behavior kk = .extracted t → t ≠ "" →
      (∀ j, j < kk → failishB (behavior j) = true) →
      (call_gemini_with_retry behavior task).result = pyStripWS t ∧
      (call_gemini_with_retry behavior task).attempts = kk + 1) ∧
    ((∀ j, j < MAX_RETRIES → failishB (behavior j) = true) →
      (call_gemini_with_retry behavior task).attempts = MAX_RETRIES ∧
      ((call_gemini_with_retry behavior task).result =
          "# Error\n\nReceived empty or problematic response from API for "
            ++ task ++ " after retries." ∨
        ∃ msg, (call_gemini_with_retry behavior task).result =
          "# Error\n\nAn unexpected error occurred during " ++ task
            ++ " after " ++ toString MAX_RETRIES ++ " attempts: " ++ msg)) := by
  have e0 : call_gemini_with_retry behavior task =
      geminiLoop behavior task 0 (2 + 1) [] := rfl
  by_cases f0 : failishB (behavior 0) = true
  · have hs1 : call_gemini_with_retry behavior task =
        geminiLoop behavior task 1 (1 + 1) [5] := by
      rw [e0, geminiLoop_step_fail behavior task 0 2 [] f0 (by decide)]
      rfl
    by_cases f1 : failishB (behavior 1) = true
    · have hs2 : call_gemini_with_retry behavior task =
          geminiLoop behavior task 2 (0 + 1) [5, 10] := by
        rw [hs1, geminiLoop_step_fail behavior task 1 1 [5] f1 (by decide)]
        rfl
      by_cases f2 : failishB (behavior 2) = true
      · have hlast := geminiLoop_step_last_fail behavior task 0 [5, 10]
          (by simpa [MAX_RETRIES] using f2)
        rw [show MAX_RETRIES - 1 = 2 from rfl] at hlast
        rw [hs2]
        refine ⟨⟨by rw [hlast.1]; decide, by rw [hlast.1]⟩, ?_, ?_, ?_⟩
        · rw [hlast.1, hlast.2.1]
          decide
        · intro kk t hkk t_ne hbt hprev
          exfalso
          rw [show MAX_RETRIES = 3 from rfl] at hkk
          interval_cases kk
          · rw [t_ne] at f0; simp [failishB] at f0; exact hbt f0
          · rw [t_ne] at f1; simp [failishB] at f1; exact hbt f1
          · rw [t_ne] at f2; simp [failishB] at f2; exact hbt f2
        · intro _
          exact ⟨hlast.1, hlast.2.2⟩
      · obtain ⟨t2, hb2, ht2⟩ :=
          not_failish (behavior 2) (Bool.not_eq_true _ ▸ eq_false_of_ne_true f2)
        have hcall : call_gemini_with_retry behavior task =
            { result := pyStripWS t2, attempts := 3, sleeps := [5, 10] } := by
          rw [hs2, geminiLoop_step_success behavior task 2 0 [5, 10] t2 hb2 ht2]
        rw [hcall]
        refine ⟨⟨by norm_num, by norm_num [MAX_RETRIES]⟩,
          by simp [List.range_succ, RETRY_DELAY], ?_, ?_⟩
        · intro kk t hkk hbt ht hprev
          rw [show MAX_RETRIES = 3 from rfl] at hkk
          interval_cases kk
          · exfalso; rw [hbt] at f0; simp [failishB, ht] at f0
          · exfalso; rw [hbt] at f1; simp [failishB, ht] at f1
          · rw [hb2] at hbt
            obtain rfl : t2 = t := by simpa using hbt
            exact ⟨rfl, rfl⟩
        · intro hall
          exfalso
          have := hall 2 (by decide)
          rw [hb2] at this
          simp [failishB, ht2] at this
    · obtain ⟨t1, hb1, ht1⟩ :=
        not_failish (behavior 1) (Bool.not_eq_true _ ▸ eq_false_of_ne_true f1)
      have hcall : call_gemini_with_retry behavior task =
          { result := pyStripWS t1, attempts := 2, sleeps := [5] } := by
        rw [hs1, geminiLoop_step_success behavior task 1 1 [5] t1 hb1 ht1]
      rw [hcall]
      refine ⟨⟨by norm_num, by norm_num [MAX_RETRIES]⟩,
        by simp [List.range_succ, RETRY_DELAY], ?_, ?_⟩
      · intro kk t hkk hbt ht hprev
        rw [show MAX_RETRIES = 3 from rfl] at hkk
        interval_cases kk
        · exfalso; rw [hbt] at f0; simp [failishB, ht] at f0
        · rw [hb1] at hbt
          obtain rfl : t1 = t := by simpa using hbt
          exact ⟨rfl, rfl⟩
        · exfalso
          have := hprev 1 (by omega)
          rw [hb1] at this
          simp [failishB, ht1] at this
      · intro hall
        exfalso
        have := hall 1 (by decide)
        rw [hb1] at this
        simp [failishB, ht1] at this
  · obtain ⟨t0, hb0, ht0⟩ :=
      not_failish (behavior 0) (Bool.not_eq_true _ ▸ eq_false_of_ne_true f0)
    have hcall : call_gemini_with_retry behavior task =
        { result := pyStripWS t0, attempts := 1, sleeps := [] } := by
      rw [e0, geminiLoop_step_success behavior task 0 2 [] t0 hb0 ht0]
    rw [hcall]
    refine ⟨⟨by norm_num, by norm_num [MAX_RETRIES]⟩,
      by simp [List.range_succ, RETRY_DELAY], ?_, ?_⟩
    · intro kk t hkk hbt ht hprev
      rw [show MAX_RETRIES = 3 from rfl] at hkk
      interval_cases kk
      · rw [hb0] at hbt
        obtain rfl : t0 = t := by simpa using hbt
        exact ⟨rfl, rfl⟩
      · exfalso
        have := hprev 0 (by omega)
        rw [hb0] at this
        simp [failishB, ht0] at this
      · exfalso
        have := hprev 0 (by omega)
        rw [hb0] at this
        simp [failishB, ht0] at this
    · intro hall
      exfalso
      have := hall 0 (by decide)
      rw [hb0] at this
      simp [failishB, ht0] at this

/-- A concrete gateway behaviour: the first attempt raises, the second
returns text " ok " with surrounding whitespace. -/
def gwBehaviorEx : Nat → GeminiOutcome :=
  fun i => if i = 0 then .raises "boom" else .extracted " ok "

/-- C4 witness: the retry law applied at `gwBehaviorEx` — the second attempt
succeeds, the result is the trimmed text and exactly two attempts ran. -/
theorem C4_gemini_retry_witness :
    (call_gemini_with_retry gwBehaviorEx "Keyword Generation").result =
      pyStripWS " ok " ∧
    (call_gemini_with_retry gwBehaviorEx "Keyword Generation").attempts = 2 :=
  (C4_gemini_retry gwBehaviorEx "Keyword Generation").2.2.1 1 " ok "
    (by decide) (by decide) (by decide)
    (by intro j hj; interval_cases j; decide)

/-! ## Claim C9: `call_gemini_for_prior_art` empty-input short circuit
(lines 257-330) -/

/-- `", ".join(f"'{desc}'" for desc in ...)` with its falsy fallback. -/
def concept_context_of (concepts_descriptions_list : List String) : String :=
  let j := String.intercalate ", "
    (concepts_descriptions_list.map (fun desc => "'" ++ desc ++ "'"))
  if j = "" then "(Could not parse concept descriptions)" else j

/-- `call_gemini_for_prior_art`: returns the produced markdown and the
number of Model Gateway invocations performed.  The ranking prompt's prose
is abbreviated to its context-bearing pieces; the gateway's reply is the
`behavior` oracle, so the prompt text does not influence control flow. -/
def call_gemini_for_prior_art (behavior : Nat → GeminiOutcome)
    (description_text : String) (concepts_descriptions_list : List String)
    (patents : List RawPatent) (focus_area : Option String) : String × Nat :=
  if patents = [] then
    ("\n\n## Prior Art Relevance Analysis\n\nNo patents found or provided from scraping for analysis.\n",
      0)
  else
    let concept_context := concept_context_of concepts_descriptions_list
    let formatted_patent_list := format_patent_list_for_prompt patents
    let focus_instruction := match focus_area with
      | some f => "\n**User Focus Area:** The user is particularly interested in aspects related to: '"
          ++ f ++ "'."
      | none => ""
    let context := "--- INVENTION DESCRIPTION START ---\n" ++ description_text
      ++ "\n--- INVENTION DESCRIPTION END ---\n\n--- PATENT LIST (Found via Keyword Concepts) START ---\n"
      ++ formatted_patent_list
      ++ "\n--- PATENT LIST (Found via Keyword Concepts) END ---\n"
    let _ := concept_context ++ focus_instruction ++ context
    ((call_gemini_with_retry behavior "Overall Prior Art Analysis").result, 1)

/-- C9: invoked with an empty patent list, the Ranker returns the fixed
"no patents" notice and performs zero Model Gateway calls. -/
theorem C9_empty_short_circuit (behavior : Nat → GeminiOutcome)
    (description_text : String) (concepts : List String)
    (focus_area : Option String) :
    call_gemini_for_prior_art behavior description_text concepts [] focus_area =
      ("\n\n## Prior Art Relevance Analysis\n\nNo patents found or provided from scraping for analysis.\n",
        0) := by
  simp [call_gemini_for_prior_art]

/-! ## The Search Gateway: `call_scrapingdog_api` (lines 133-190)

Per-attempt behaviour of `requests.get` + `raise_for_status`:
a non-error response (with JSON decoding succeeding or not), a
`requests.exceptions.Timeout`, or a `requests.exceptions.RequestException`
(which includes the `HTTPError` raised by `raise_for_status`) carrying an
optional attached response status. -/

inductive ScrapeAttemptOutcome where
  | success (jsonOk : Bool) (status : Nat)
  | timeoutExc
  | requestExc (msg : String) (respStatus : Option Nat)
deriving DecidableEq

inductive ScrapeResult where
  | ok (status : Nat)
  | err (msg : String) (status_code : Option Nat)
  | raised (excName : String)
deriving DecidableEq

structure ScrapeRun where
  result : ScrapeResult
  attempts : Nat
  sleeps : List Nat
deriving DecidableEq

/-- The retry loop of `call_scrapingdog_api`; the message strings keep the
source's fixed heads, without the query/page interpolation.  In the
`requestExc` arm with no attached response, line 177 evaluates
`e.response.status_code` on `None`, so an `AttributeError` escapes. -/
def scrapeLoop (behavior : Nat → ScrapeAttemptOutcome) :
    Nat → Nat → List Nat → ScrapeRun
  | attempt, 0, sleeps =>
      { result := .err "Scraping failed after retries, unknown state." none,
        attempts := attempt, sleeps := sleeps }
  | attempt, r + 1, sleeps =>
      match behavior attempt with
      | .success jsonOk status =>
          if jsonOk then
            { result := .ok status, attempts := attempt + 1, sleeps := sleeps }
          else if attempt < MAX_RETRIES - 1 then
            scrapeLoop behavior (attempt + 1) r
              (sleeps ++ [RETRY_DELAY * (attempt + 1)])
          else
            { result := .err "ScrapingDog Error: Failed to decode JSON." (some status),
              attempts := attempt + 1, sleeps := sleeps }
      | .timeoutExc =>
          if attempt < MAX_RETRIES - 1 then
            scrapeLoop behavior (attempt + 1) r
              (sleeps ++ [RETRY_DELAY * (attempt + 1)])
          else
            { result := .err "ScrapingDog Error: Request timed out." none,
              attempts := attempt + 1, sleeps := sleeps }
      | .requestExc msg respStatus =>
          match respStatus with
          | some sc =>
              if sc = 400 then
                { result := .err msg (some 400), attempts := attempt + 1,
                  sleeps := sleeps }
              else if 500 ≤ sc ∧ sc < 600 ∧ attempt < MAX_RETRIES - 1 then
                scrapeLoop behavior (attempt + 1) r
                  (sleeps ++ [RETRY_DELAY * (attempt + 1)])
              else
                { result := .err msg (some sc), attempts := attempt + 1,
                  sleeps := sleeps }
          | none =>
              { result := .raised "AttributeError", attempts := attempt + 1,
                sleeps := sleeps }

/-- `call_scrapingdog_api` with the API key configured. -/
def call_scrapingdog_api (behavior : Nat → ScrapeAttemptOutcome) : ScrapeRun :=
  scrapeLoop behavior 0 MAX_RETRIES []

/-- C5 (code bug): a `RequestException` with no attached response (e.g. a
connection error) makes `call_scrapingdog_api` raise `AttributeError`
through line 177 instead of returning a tagged error dict — after exactly
one attempt. -/
theorem C5_raises_on_responseless_exception :
    call_scrapingdog_api
        (fun _ => .requestExc "ScrapingDog Error: Request exception: connection refused" none) =
      { result := .raised "AttributeError", attempts := 1, sleeps := [] } := by
  rfl

/-- C6: a 4xx response is terminal — one attempt, no sleep, the Failure
carries the status code; a timeout on every attempt is retried with linear
backoff up to the full 3-attempt cap before a Failure is returned. -/
theorem C6_terminal_vs_transient (behavior : Nat → ScrapeAttemptOutcome)
    (msg : String) (sc : Nat) :
    (behavior 0 = .requestExc msg (some sc) → 400 ≤ sc → sc < 500 →
      (call_scrapingdog_api behavior).attempts = 1 ∧
      (call_scrapingdog_api behavior).result = .err msg (some sc) ∧
      (call_scrapingdog_api behavior).sleeps = []) ∧
    ((∀ i, behavior i = .timeoutExc) →
      (call_scrapingdog_api behavior).attempts = MAX_RETRIES ∧
      (call_scrapingdog_api behavior).result =
        .err "ScrapingDog Error: Request timed out." none ∧
      (call_scrapingdog_api behavior).sleeps = [5, 10]) := by
  have e0 : call_scrapingdog_api behavior = scrapeLoop behavior 0 (2 + 1) [] := rfl
  constructor
  · intro hb h4a h4b
    rw [e0]
    by_cases h400 : sc = 400
    · subst h400
      simp [scrapeLoop, hb]
    · have hno5 : ¬ (500 ≤ sc) := by omega
      simp [scrapeLoop, hb, h400, hno5]
  · intro ht
    have s1 : scrapeLoop behavior 0 (2 + 1) [] =
        scrapeLoop behavior 1 (1 + 1) [5] := by
      simp [scrapeLoop, ht 0, MAX_RETRIES, RETRY_DELAY]
    have s2 : scrapeLoop behavior 1 (1 + 1) [5] =
        scrapeLoop behavior 2 (0 + 1) [5, 10] := by
      simp [scrapeLoop, ht 1, MAX_RETRIES, RETRY_DELAY]
    have s3 : scrapeLoop behavior 2 (0 + 1) [5, 10] =
        { result := .err "ScrapingDog Error: Request timed out." none,
          attempts := 3, sleeps := [5, 10] } := by
      simp [scrapeLoop, ht 2, MAX_RETRIES]
    rw [e0, s1, s2, s3]
    exact ⟨rfl, rfl, rfl⟩

/-- C6 witness: the terminal/transient law applied to a concrete 404
behaviour and a concrete always-timeout behaviour. -/
theorem C6_terminal_vs_transient_witness :
    ((call_scrapingdog_api (fun _ => .requestExc "ScrapingDog Error: 404" (some 404))).attempts = 1 ∧
      (call_scrapingdog_api (fun _ => .requestExc "ScrapingDog Error: 404" (some 404))).result =
        .err "ScrapingDog Error: 404" (some 404) ∧
      (call_scrapingdog_api (fun _ => .requestExc "ScrapingDog Error: 404" (some 404))).sleeps = []) ∧
    ((call_scrapingdog_api (fun _ => .timeoutExc)).attempts = MAX_RETRIES ∧
      (call_scrapingdog_api (fun _ => .timeoutExc)).result =
        .err "ScrapingDog Error: Request timed out." none ∧
      (call_scrapingdog_api (fun _ => .timeoutExc)).sleeps = [5, 10]) :=
  ⟨(C6_terminal_vs_transient (fun _ => .requestExc "ScrapingDog Error: 404" (some 404))
      "ScrapingDog Error: 404" 404).1 rfl (by decide) (by decide),
   (C6_terminal_vs_transient (fun _ => .timeoutExc)
      "ScrapingDog Error: 404" 404).2 (fun _ => rfl)⟩

/-! ## Claim C2: the parsed short-list for the deep dive (lines 648-686)

The ranked-entry extraction
`re.findall(r"^\*\*\d+\.\s+((?:patent/)?\S+)\s+-", md, re.MULTILINE)`
is deterministic: the character classes at each boundary are disjoint, so
greedy scanning without backtracking matches the regex engine. -/

/-- Try the ranked-entry pattern at a line start: "**", digits, ".",
whitespace, a non-space run (the capture — '(?:patent/)?' adds nothing, as
"patent/" is itself non-space), whitespace, "-".  Returns the capture and
the remainder after the match. -/
def matchRankedAt : List Char → Option (List Char × List Char)
  | '*' :: '*' :: rest =>
      let ds := rest.takeWhile Char.isDigit
      if ds = [] then none
      else
        match rest.drop ds.length with
        | '.' :: rest2 =>
            let ws1 := rest2.takeWhile Char.isWhitespace
            if ws1 = [] then none
            else
              let rest3 := rest2.drop ws1.length
              let cap := rest3.takeWhile (fun c => !c.isWhitespace)
              if cap = [] then none
              else
                let rest4 := rest3.drop cap.length
                let ws2 := rest4.takeWhile Char.isWhitespace
                if ws2 = [] then none
                else
                  match rest4.drop ws2.length with
                  | '-' :: rest5 => some (cap, rest5)
                  | _ => none
        | _ => none
  | _ => none

/-- Non-overlapping left-to-right scan, attempting the pattern at every
line-start position (MULTILINE `^`), resuming after each match. -/
def findRankedAux : Nat → List Char → Bool → List (List Char)
  | 0, _, _ => []
  | _ + 1, [], _ => []
  | fuel + 1, c :: cs, atStart =>
      if atStart then
        match matchRankedAt (c :: cs) with
        | some (cap, rest) => cap :: findRankedAux fuel rest false
        | none => findRankedAux fuel cs (c == '\n')
      else findRankedAux fuel cs (c == '\n')

/-- `parsed_ids_raw` (line 653). -/
def parseRankedIds (initial_analysis_md : String) : List String :=
  (findRankedAux initial_analysis_md.toList.length
    initial_analysis_md.toList true).map String.mk

/-- `top_patent_ids_normalized` (lines 658-666): normalize each parsed id,
keeping only truthy results. -/
def top_patent_ids_normalized (initial_analysis_md : String) : List String :=
  (parseRankedIds initial_analysis_md).filterMap (fun raw_id =>
    match normalize_patent_id raw_id with
    | some nid => if nid ≠ "" then some nid else none
    | none => none)

/-- `top_patents_for_deep_dive` (lines 669-677): look each normalized id up
in the scraped dict, silently dropping missing ones. -/
def top_patents_for_deep_dive (initial_analysis_md : String)
    (scraped_patents_dict : List (String × RawPatent)) : List RawPatent :=
  (top_patent_ids_normalized initial_analysis_md).filterMap
    (fun pid => dictLookup scraped_patents_dict pid)

/-- A minimal scraped record for a bare id. -/
def mkRec (t : String) : RawPatent :=
  { patent_id := some t, title := some ("Title " ++ t),
    publication_date := none, assignee := none, inventor := none,
    snippet := none, pdf := none, url := none }

/-- A ranking text listing six entries. -/
def rankingSixMd : String :=
  "**1. A1 - T\n**2. A2 - T\n**3. A3 - T\n**4. A4 - T\n**5. A5 - T\n**6. A6 - T\n"

/-- A scraped dict containing all six listed documents. -/
def dictSix : List (String × RawPatent) :=
  [("A1", mkRec "A1"), ("A2", mkRec "A2"), ("A3", mkRec "A3"),
   ("A4", mkRec "A4"), ("A5", mkRec "A5"), ("A6", mkRec "A6")]

/-- C2 (corrected claim, counterexample): the code puts NO cap on the
parsed short-list — a ranking text with six numbered entries all present in
the map yields a six-entry deep-dive list, exceeding the claimed maximum
of 5. -/
theorem C2_counterexample :
    (top_patents_for_deep_dive rankingSixMd dictSix).length = 6 ∧ 5 < 6 := by
  refine ⟨by decide, by decide⟩

/-- C2 (amended): the short-list is bounded by the number of parsed ranked
lines (shrinking when ids fail to normalize or are absent from the map),
and every short-listed record comes from the scraped map — but no fixed
maximum of 5 is enforced by the parser. -/
theorem C2_shortlist_amended (initial_analysis_md : String)
    (scraped_patents_dict : List (String × RawPatent)) :
    (top_patents_for_deep_dive initial_analysis_md scraped_patents_dict).length ≤
      (parseRankedIds initial_analysis_md).length ∧
    ∀ p ∈ top_patents_for_deep_dive initial_analysis_md scraped_patents_dict,
      ∃ k, dictLookup scraped_patents_dict k = some p := by
  constructor
  · exact le_trans (List.length_filterMap_le _ _) (List.length_filterMap_le _ _)
  · intro p hp
    obtain ⟨k, -, hk⟩ := List.mem_filterMap.mp hp
    exact ⟨k, hk⟩

/-- C2 witness: the amended bound applied at the six-entry ranking text:
the first short-listed record indeed comes from the map. -/
theorem C2_shortlist_amended_witness :
    ∃ k, dictLookup dictSix k = some (mkRec "A1") :=
  (C2_shortlist_amended rankingSixMd dictSix).2 (mkRec "A1") (by decide)

/-! ## Claim C7: `parse_all_concept_data` (lines 338-400) -/

/-- Python `str.find`: index of the first occurrence of `needle`, `none`
when absent (Python returns -1). -/
def strFindAux (needle : List Char) : Nat → List Char → Option Nat
  | i, [] => if needle.isPrefixOf ([] : List Char) then some i else none
  | i, c :: cs =>
      if needle.isPrefixOf (c :: cs) then some i else strFindAux needle (i + 1) cs

def strFind (hay needle : List Char) : Option Nat := strFindAux needle 0 hay

/-- The concept-header pattern `\*\*Concept\s*\d+:\s*([^\*]+)\*\*` tried at
one position; returns (group 1, remainder after the closing "**"). -/
def matchConceptHeader (l : List Char) : Option (List Char × List Char) :=
  match l with
  | '*' :: '*' :: 'C' :: 'o' :: 'n' :: 'c' :: 'e' :: 'p' :: 't' :: r1 =>
      let ws1 := r1.takeWhile Char.isWhitespace
      let r2 := r1.drop ws1.length
      let ds := r2.takeWhile Char.isDigit
      if ds = [] then none
      else
        match r2.drop ds.length with
        | ':' :: r3 =>
            let ws2 := r3.takeWhile Char.isWhitespace
            let r4 := r3.drop ws2.length
            let desc := r4.takeWhile (fun c => !(c == '*'))
            if desc = [] then none
            else
              match r4.drop desc.length with
              | '*' :: '*' :: r5 => some (desc, r5)
              | _ => none
        | _ => none
  | _ => none

/-- The lookahead `(?=\n\s*\*\*Concept\s*\d+:)` bounding a concept block. -/
def isNextConceptHeader (l : List Char) : Bool :=
  match l with
  | '\n' :: r0 =>
      match r0.dropWhile Char.isWhitespace with
      | '*' :: '*' :: 'C' :: 'o' :: 'n' :: 'c' :: 'e' :: 'p' :: 't' :: r2 =>
          let r3 := r2.dropWhile Char.isWhitespace
          let ds := r3.takeWhile Char.isDigit
          if ds = [] then false
          else
            match r3.drop ds.length with
            | ':' :: _ => true
            | _ => false
      | _ => false
  | _ => false

/-- Advance to the first position where the next-concept lookahead holds
(the lazy `.*?` body of the block). -/
def dropToNextHeader : List Char → List Char
  | [] => []
  | c :: cs => if isNextConceptHeader (c :: cs) then c :: cs else dropToNextHeader cs

/-- `re.finditer` of the concept pattern: each match yields
(group 1 = description, group 0 = the whole block text). -/
def findConceptBlocksAux : Nat → List Char → List (List Char × List Char)
  | 0, _ => []
  | _ + 1, [] => []
  | fuel + 1, c :: cs =>
      match matchConceptHeader (c :: cs) with
      | some (desc, afterHeader) =>
          let rest := dropToNextHeader afterHeader
          let block := (c :: cs).take ((c :: cs).length - rest.length)
          (desc, block) :: findConceptBlocksAux fuel rest
      | none => findConceptBlocksAux fuel cs

def findConceptBlocks (cross_lingual_section : List Char) :
    List (List Char × List Char) :=
  findConceptBlocksAux cross_lingual_section.length cross_lingual_section

/-- The language-line pattern
`^\s*\*\s*([A-Za-z]+):\s*`...`` (backticked term list) tried at a line
start; returns ((language, raw term string), remainder). -/
def matchLangLine (l : List Char) :
    Option ((List Char × List Char) × List Char) :=
  let ws0 := l.takeWhile Char.isWhitespace
  match l.drop ws0.length with
  | '*' :: r1 =>
      let ws1 := r1.takeWhile Char.isWhitespace
      let r2 := r1.drop ws1.length
      let lang := r2.takeWhile Char.isAlpha
      if lang = [] then none
      else
        match r2.drop lang.length with
        | ':' :: r3 =>
            let ws2 := r3.takeWhile Char.isWhitespace
            match r3.drop ws2.length with
            | '`' :: r4 =>
                let terms := r4.takeWhile (fun c => !(c == '`'))
                if terms = [] then none
                else
                  match r4.drop terms.length with
                  | '`' :: r5 => some ((lang, terms), r5)
                  | _ => none
            | _ => none
        | _ => none
  | _ => none

/-- `re.findall` of the language-line pattern over a concept block
(MULTILINE scan, resuming after each match). -/
def findLangLinesAux : Nat → List Char → Bool → List (List Char × List Char)
  | 0, _, _ => []
  | _ + 1, [], _ => []
  | fuel + 1, c :: cs, atStart =>
      if atStart then
        match matchLangLine (c :: cs) with
        | some (m, rest) => m :: findLangLinesAux fuel rest false
        | none => findLangLinesAux fuel cs (c == '\n')
      else findLangLinesAux fuel cs (c == '\n')

def findLangLines (concept_block_text : List Char) :
    List (List Char × List Char) :=
  findLangLinesAux concept_block_text.length concept_block_text true

/-- Lines 375-381: split each backticked term string on commas, strip each
term, keep non-empty ones; assign under the stripped language name only
when the term list is non-empty. -/
def buildLanguageTerms (ms : List (List Char × List Char)) :
    List (String × List String) :=
  ms.foldl (fun language_terms m =>
    let terms := (((splitChar ',' m.2).map
      (fun t => stripEnds Char.isWhitespace t)).filter
        (fun t => !t.isEmpty)).map String.mk
    if terms ≠ [] then
      dictInsert language_terms (String.mk (stripEnds Char.isWhitespace m.1)) terms
    else language_terms) []

/-- `parse_all_concept_data`: locate the "### Cross-Lingual Search Concepts"
section (empty mapping when absent), bound it by the next section header,
and collect per-concept language/term maps, dropping concepts with no
parseable language/term line. -/
def parse_all_concept_data (keyword_report_md : String) :
    List (String × List (String × List String)) :=
  match strFind keyword_report_md.toList
      "### Cross-Lingual Search Concepts".toList with
  | none => []
  | some cross_lingual_start_idx =>
      let fromHeader := keyword_report_md.toList.drop cross_lingual_start_idx
      let cross_lingual_section :=
        match strFind fromHeader
            "### Language-Specific or Nuanced Search Terms".toList with
        | some j => fromHeader.take j
        | none => fromHeader
      (findConceptBlocks cross_lingual_section).foldl (fun concepts db =>
        let concept_description := String.mk (stripEnds Char.isWhitespace db.1)
        let language_terms := buildLanguageTerms (findLangLines db.2)
        if language_terms ≠ [] then
          dictInsert concepts concept_description language_terms
        else concepts) []

/-- `dictInsert` preserves a predicate that holds of every stored value. -/
theorem dictInsert_values {α : Type} (P : α → Prop) (d : List (String × α))
    (k : String) (v : α) (hd : ∀ kv ∈ d, P kv.2) (hv : P v) :
    ∀ kv ∈ dictInsert d k v, P kv.2 := by
  induction d with
  | nil =>
      intro kv hkv
      rcases List.mem_singleton.mp hkv with rfl
      exact hv
  | cons kv0 d ih =>
      intro kv hkv
      unfold dictInsert at hkv
      by_cases h0 : kv0.1 == k
      · rw [if_pos h0] at hkv
        rcases List.mem_cons.mp hkv with rfl | hkv
        · exact hv
        · exact hd kv (List.mem_cons_of_mem _ hkv)
      · rw [if_neg h0] at hkv
        rcases List.mem_cons.mp hkv with rfl | hkv
        · exact hd kv (List.mem_cons_self _ _)
        · exact ih (fun kv h => hd kv (List.mem_cons_of_mem _ h)) kv hkv

/-- A predicate preserved by every fold step holds of the fold's result. -/
theorem foldl_preserves {α β : Type} (P : β → Prop) (f : β → α → β)
    (hf : ∀ b a, P b → P (f b a)) :
    ∀ (l : List α) (b : β), P b → P (l.foldl f b)
  | [], _, hb => hb
  | a :: l, b, hb => foldl_preserves P f hf l (f b a) (hf b a hb)

/-- Every language entry built by `buildLanguageTerms` has a non-empty term
list (the guard on line 379). -/
theorem buildLanguageTerms_nonempty (ms : List (List Char × List Char)) :
    ∀ kv ∈ buildLanguageTerms ms, kv.2 ≠ [] := by
  unfold buildLanguageTerms
  refine foldl_preserves
    (fun d : List (String × List String) => ∀ kv ∈ d, kv.2 ≠ ([] : List String)) _
    ?_ ms [] (by intro kv h; cases h)
  intro d m hd
  dsimp only
  by_cases hterms : (((splitChar ',' m.2).map
      (fun t => stripEnds Char.isWhitespace t)).filter
        (fun t => !t.isEmpty)).map String.mk ≠ []
  · rw [if_pos hterms]
    exact dictInsert_values (fun v => v ≠ ([] : List String)) d _ _ hd hterms
  · rw [if_neg hterms]
    exact hd

/-- The values stored by `parse_all_concept_data` are non-empty language
maps whose term lists are all non-empty. -/
theorem parse_all_concept_data_values (keyword_report_md : String) :
    ∀ desc lt, (desc, lt) ∈ parse_all_concept_data keyword_report_md →
      lt ≠ [] ∧ ∀ kv ∈ lt, kv.2 ≠ ([] : List String) := by
  unfold parse_all_concept_data
  rcases hf : strFind keyword_report_md.toList
      "### Cross-Lingual Search Concepts".toList with _ | idx
  · intro desc lt h; cases h
  · intro desc lt hmem
    refine (foldl_preserves
      (fun concepts => ∀ d l, (d, l) ∈ concepts →
        l ≠ [] ∧ ∀ kv ∈ l, kv.2 ≠ ([] : List String)) _
      ?_ _ [] (by intro d l h; cases h)) desc lt hmem
    intro concepts db hP
    dsimp only
    by_cases hlt : buildLanguageTerms (findLangLines db.2) ≠ []
    · rw [if_pos hlt]
      intro d l hdl
      exact dictInsert_values
        (fun l => l ≠ [] ∧ ∀ kv ∈ l, kv.2 ≠ ([] : List String)) concepts _ _
        (fun kv h => hP kv.1 kv.2 (by rwa [Prod.mk.eta])) 
        ⟨hlt, buildLanguageTerms_nonempty _⟩ (d, l) hdl
    · rw [if_neg hlt]
      intro d l hdl
      exact hP d l hdl

/-- C7: every concept retained by `parse_all_concept_data` has a non-empty
term list for at least one language, and when the
"### Cross-Lingual Search Concepts" header is absent the parser returns the
empty mapping rather than failing. -/
theorem C7_concepts (keyword_report_md : String) :
    (∀ desc lt, (desc, lt) ∈ parse_all_concept_data keyword_report_md →
      ∃ entry ∈ lt, entry.2 ≠ []) ∧
    (strFind keyword_report_md.toList
        "### Cross-Lingual Search Concepts".toList = none →
      parse_all_concept_data keyword_report_md = []) := by
  constructor
  · intro desc lt hmem
    obtain ⟨hne, hall⟩ := parse_all_concept_data_values keyword_report_md
      desc lt hmem
    obtain ⟨e, es, rfl⟩ := List.exists_cons_of_ne_nil hne
    exact ⟨e, List.mem_cons_self _ _, hall e (List.mem_cons_self _ _)⟩
  · intro hf
    unfold parse_all_concept_data
    rw [hf]

/-- A keyword report with one well-formed concept, one concept whose only
term string strips to nothing, and a plain text without the section. -/
def conceptMdEx : String :=
  "### Cross-Lingual Search Concepts\n**Concept 1: Heated mug**\n    *   English: `heated mug, warm cup`\n    *   German: `beheizte Tasse`\n**Concept 2: Empty one**\n    *   English: ` `\n"

set_option maxRecDepth 8192 in
/-- C7 witness: the invariant applied to the retained concept of
`conceptMdEx`, and the empty-section behaviour on a header-free text. -/
theorem C7_concepts_witness :
    (∃ entry ∈ [("English", ["heated mug", "warm cup"]),
        ("German", ["beheizte Tasse"])], entry.2 ≠ ([] : List String)) ∧
    parse_all_concept_data "plain text" = [] :=
  ⟨(C7_concepts conceptMdEx).1 "Heated mug"
      [("English", ["heated mug", "warm cup"]), ("German", ["beheizte Tasse"])]
      (by decide),
    (C7_concepts "plain text").2 (by decide)⟩
